import Mathlib

/-!
Shallow embedding of the GNews MCP server core (`src/gnews.py`):
query sanitization, result-count validation, two-tier caching
(in-memory TTL cache + optional persistent disk cache), the upstream
fetch, and the response normalizer, together with the two tool entry
points `search_news` and `top_headlines`.

Modelling conventions:
* Python strings are modelled as `List Char` (`Str`).
* Time is an explicit natural-number clock carried in the state `St`;
  TTL-cache entries record their absolute expiry instant and a lookup
  treats an entry as present exactly while `now < expiry`.
* The in-memory `TTLCache` capacity bound (256 / 64 entries) and its
  eviction order are not modelled: no claim depends on capacity
  eviction, and the spec declares eviction order non-load-bearing.
* `httpCalls` counts the outbound HTTP requests actually issued, so
  that "no upstream call" is an observable fact of the model.
-/

set_option autoImplicit false
set_option synthInstance.maxSize 1024
set_option synthInstance.maxHeartbeats 1000000
set_option maxRecDepth 16384

namespace GNews

abbrev Str := List Char

deriving instance DecidableEq for Except

/-- Errors raised by the tool layer: `ValueError` for invalid input,
the missing-credential `RuntimeError` from `get_api_key`, and the
upstream `RuntimeError` carrying status code and body excerpt. -/
inductive Err where
  | invalid (msg : Str)
  | missingKey
  | upstream (status : Nat) (excerpt : Str)
  deriving DecidableEq, Repr

/-- Whitespace for Python `str.strip` / regex `\s` (Unicode whitespace). -/
def isPySpace (c : Char) : Bool :=
  c.toNat == 0x20 || (0x09 ≤ c.toNat && c.toNat ≤ 0x0D) ||
  (0x1C ≤ c.toNat && c.toNat ≤ 0x1F) || c.toNat == 0x85 || c.toNat == 0xA0 ||
  c.toNat == 0x1680 || (0x2000 ≤ c.toNat && c.toNat ≤ 0x200A) ||
  c.toNat == 0x2028 || c.toNat == 0x2029 || c.toNat == 0x202F ||
  c.toNat == 0x205F || c.toNat == 0x3000

/-- Characters removed by `re.sub(r"[\x00-\x08\x0B\x0C\x0E-\x1F]", "", q)`. -/
def isStrippedCtrl (c : Char) : Bool :=
  c.toNat ≤ 0x08 || c.toNat == 0x0B || c.toNat == 0x0C ||
  (0x0E ≤ c.toNat && c.toNat ≤ 0x1F)

def spaceChar : Char := Char.ofNat 0x20

def removeCtrl (l : Str) : Str := l.filter (fun c => !isStrippedCtrl c)

/-- Drop trailing whitespace (the second half of `str.strip`). -/
def dropTrailWs (l : Str) : Str := (l.reverse.dropWhile isPySpace).reverse

/-- Python `str.strip()`: drop leading and trailing whitespace. -/
def stripWs (l : Str) : Str := dropTrailWs (l.dropWhile isPySpace)

def normChar (c : Char) : Char := if isPySpace c then spaceChar else c

/-- The collapse `re.sub(r"\s+", " ", q)`: replace each maximal whitespace run by one space. -/
def collapseWs : Str → Str
  | [] => []
  | [c] => [normChar c]
  | a :: b :: rest =>
    if isPySpace a && isPySpace b then collapseWs (b :: rest)
    else normChar a :: collapseWs (b :: rest)

def MAX_QUERY_LEN : Nat := 300

/-- The pure normalization pipeline of `sanitize_query`, before the
emptiness/length checks. -/
def normalizeQuery (q : Str) : Str := collapseWs (stripWs (removeCtrl q))

def emptyQueryMsg : Str := "Query must not be empty after sanitization".toList
def longQueryMsg : Str := "Query too long (>300 chars)".toList

def sanitize_query (q : Str) : Except Err Str :=
  let q := normalizeQuery q
  if q = [] then .error (.invalid emptyQueryMsg)
  else if q.length > MAX_QUERY_LEN then .error (.invalid longQueryMsg)
  else .ok q

/-- The argument of `validate_max`: a Python `int`, a pydantic
`FieldInfo` default sentinel (carrying its `.default`), or any other
non-int, non-`FieldInfo` value. -/
inductive MaxVal where
  | int (n : Int)
  | fieldInfo (d : MaxVal)
  | other
  deriving DecidableEq, Repr

def maxIntMsg : Str := "Parameter max must be an integer".toList
def maxRangeMsg : Str := "Parameter max must be between 1 and 100 inclusive".toList

def validate_max (m : MaxVal) : Except Err Int :=
  let m := match m with
    | .fieldInfo d => d
    | x => x
  match m with
  | .int n => if 1 ≤ n ∧ n ≤ 100 then .ok n else .error (.invalid maxRangeMsg)
  | _ => .error (.invalid maxIntMsg)

/-- Normalized article shape (the pydantic `Article` model). -/
structure Article where
  title : Str
  description : Option Str
  url : Str
  source : Option Str
  published_at : Option Str
  image : Option Str
  deriving DecidableEq, Repr

/-- The `source` field of a raw provider article: key absent, key
present with `null`, or a source object with an optional `name`. -/
inductive SourceField where
  | absent
  | null
  | dict (name : Option Str)
  deriving DecidableEq, Repr

structure RawArticle where
  title : Option Str
  description : Option Str
  url : Option Str
  source : SourceField
  publishedAt : Option Str
  image : Option Str
  deriving DecidableEq, Repr

structure RawResponse where
  totalArticles : Option Nat
  articles : Option (List RawArticle)
  deriving DecidableEq, Repr

structure NormResult where
  total : Nat
  articles : List Article
  deriving DecidableEq, Repr

/-- Evaluation of `(a.get("source", {}) or {}).get("name")`. -/
def sourceName : SourceField → Option Str
  | .absent => none
  | .null => none
  | .dict n => n

def normalizeArticle (a : RawArticle) : Article :=
  { title := a.title.getD []
    description := a.description
    url := a.url.getD []
    source := sourceName a.source
    published_at := a.publishedAt
    image := a.image }

def normalize_articles (raw : RawResponse) : NormResult :=
  let articles := (raw.articles.getD []).map normalizeArticle
  { total := raw.totalArticles.getD articles.length, articles := articles }

/-- A query-parameter value: Python `str` or `int`. -/
inductive PVal where
  | s (v : Str)
  | i (n : Int)
  deriving DecidableEq, Repr

/-- The comprehension `{k: v for k, v in params.items() if v is not None}`. -/
def filterNone (params : List (String × Option PVal)) : List (String × PVal) :=
  params.filterMap fun p => p.2.map fun v => (p.1, v)

/-- The merge `{"apikey": api_key, **{k: v for k, v in params.items() if v is not None}}`. -/
def mergedParams (apiKey : Str) (params : List (String × Option PVal)) :
    List (String × PVal) :=
  ("apikey", .s apiKey) :: filterNone params

structure HttpResponse where
  status : Nat
  text : Str
  json : RawResponse

/-- External collaborators: the credential environment variable
(`none` = unset), whether the optional persistent disk cache was
configured and initialized, and the upstream HTTP endpoint as a
function from (endpoint, merged query parameters) to a response. -/
structure Env where
  apiKey : Option Str
  diskConfigured : Bool
  upstream : String → List (String × PVal) → HttpResponse

def missingKeyMsg : Str := "Missing GNEWS_API_KEY environment variable".toList

/-- Embedding of `get_api_key`: `os.getenv` then the falsiness check `if not key`
(an unset variable and an empty-string value both fail). -/
def get_api_key (env : Env) : Except Err Str :=
  match env.apiKey with
  | none => .error .missingKey
  | some k => if k = [] then .error .missingKey else .ok k

structure FetchOut where
  result : Except Err RawResponse
  httpCalls : Nat
  deriving DecidableEq, Repr

def fetch (env : Env) (endpoint : String) (params : List (String × Option PVal)) :
    FetchOut :=
  match get_api_key env with
  | .error e => ⟨.error e, 0⟩
  | .ok api_key =>
    let resp := env.upstream endpoint (mergedParams api_key params)
    if resp.status ≠ 200 then
      ⟨.error (.upstream resp.status (resp.text.take 300)), 1⟩
    else ⟨.ok resp.json, 1⟩

abbrev SearchKey := Str × Option Str × Option Str × Int × Bool
abbrev HeadKey := Option Str × Option Str × Option Str × Int

/-- A persistent-cache key `("search", cache_key)` / `("headlines", cache_key)`. -/
inductive DiskKey where
  | search (k : SearchKey)
  | headlines (k : HeadKey)
  deriving DecidableEq, Repr

/-- Server state: the clock and the cache tiers. Each entry is
(key, value, absolute expiry instant). -/
structure St where
  now : Nat
  searchMem : List (SearchKey × NormResult × Nat)
  headlineMem : List (HeadKey × NormResult × Nat)
  disk : List (DiskKey × NormResult × Nat)
  deriving DecidableEq, Repr

/-- TTL lookup: the entry for `k`, provided it has not expired. -/
def lookupTTL {κ : Type} [DecidableEq κ] (now : Nat) (k : κ)
    (m : List (κ × NormResult × Nat)) : Option NormResult :=
  match m.find? (fun e => decide (e.1 = k)) with
  | some e => if now < e.2.2 then some e.2.1 else none
  | none => none

/-- TTL insert: store `v` under `k` expiring at `exp`, replacing any
previous entry for `k`. -/
def insertTTL {κ : Type} [DecidableEq κ] (k : κ) (v : NormResult) (exp : Nat)
    (m : List (κ × NormResult × Nat)) : List (κ × NormResult × Nat) :=
  (k, v, exp) :: m.filter (fun e => decide (¬ e.1 = k))

/-- The `params` dict built by `search_news` (from the sanitized query). -/
def searchParams (q : Str) (lang country : Option Str) (m : Int)
    (in_title : Bool) : List (String × Option PVal) :=
  [("q", some (.s q)), ("lang", lang.map .s), ("country", country.map .s),
   ("max", some (.i m)),
   ("in", if in_title then some (.s "title".toList) else none)]

/-- The `params` dict built by `top_headlines`. -/
def headParams (lang country category : Option Str) (m : Int) :
    List (String × Option PVal) :=
  [("lang", lang.map .s), ("country", country.map .s),
   ("category", category.map .s), ("max", some (.i m))]

structure ToolOut where
  result : Except Err NormResult
  st : St
  httpCalls : Nat
  deriving DecidableEq, Repr

def search_news (env : Env) (st : St) (q : Str) (lang country : Option Str)
    (maxArg : MaxVal) (in_title : Bool) : ToolOut :=
  match sanitize_query q with
  | .error e => ⟨.error e, st, 0⟩
  | .ok q =>
    match validate_max maxArg with
    | .error e => ⟨.error e, st, 0⟩
    | .ok max =>
      let cache_key : SearchKey := (q, lang, country, max, in_title)
      match lookupTTL st.now cache_key st.searchMem with
      | some cached => ⟨.ok cached, st, 0⟩
      | none =>
        match (if env.diskConfigured then
                 lookupTTL st.now (DiskKey.search cache_key) st.disk
               else none) with
        | some cached => ⟨.ok cached, st, 0⟩
        | none =>
          let f := fetch env "search" (searchParams q lang country max in_title)
          match f.result with
          | .error e => ⟨.error e, st, f.httpCalls⟩
          | .ok data =>
            let normalized := normalize_articles data
            ⟨.ok normalized,
             { st with
                searchMem :=
                  insertTTL cache_key normalized (st.now + 60) st.searchMem
                disk :=
                  if env.diskConfigured then
                    insertTTL (DiskKey.search cache_key) normalized
                      (st.now + 60) st.disk
                  else st.disk },
             f.httpCalls⟩

def top_headlines (env : Env) (st : St) (lang country category : Option Str)
    (maxArg : MaxVal) : ToolOut :=
  match validate_max maxArg with
  | .error e => ⟨.error e, st, 0⟩
  | .ok max =>
    let cache_key : HeadKey := (lang, country, category, max)
    match lookupTTL st.now cache_key st.headlineMem with
    | some cached => ⟨.ok cached, st, 0⟩
    | none =>
      match (if env.diskConfigured then
               lookupTTL st.now (DiskKey.headlines cache_key) st.disk
             else none) with
      | some cached => ⟨.ok cached, st, 0⟩
      | none =>
        let f := fetch env "top-headlines" (headParams lang country category max)
        match f.result with
        | .error e => ⟨.error e, st, f.httpCalls⟩
        | .ok data =>
          let normalized := normalize_articles data
          ⟨.ok normalized,
           { st with
              headlineMem :=
                insertTTL cache_key normalized (st.now + 30) st.headlineMem
              disk :=
                if env.diskConfigured then
                  insertTTL (DiskKey.headlines cache_key) normalized
                    (st.now + 30) st.disk
                else st.disk },
           f.httpCalls⟩

/-! Concrete fixtures used by witnesses and counterexamples. -/

def demoRawArticle : RawArticle :=
  { title := some "Hello".toList
    description := some "Desc".toList
    url := some "u".toList
    source := .dict (some "Example".toList)
    publishedAt := some "2025-11-17T00:00:00Z".toList
    image := none }

def demoResponse : RawResponse := ⟨some 1, some [demoRawArticle]⟩

def sparseRaw : RawArticle := ⟨none, none, none, .absent, none, none⟩

def demoResult : NormResult := normalize_articles demoResponse

def demoEnv : Env := ⟨some "k".toList, true, fun _ _ => ⟨200, [], demoResponse⟩⟩

def demoEnvNoDisk : Env := ⟨some "k".toList, false, fun _ _ => ⟨200, [], demoResponse⟩⟩

def demoEnvNoKey : Env := ⟨none, true, fun _ _ => ⟨200, [], demoResponse⟩⟩

def demoEnv500 : Env :=
  ⟨some "k".toList, false, fun _ _ => ⟨500, "boom".toList, demoResponse⟩⟩

def emptySt : St := ⟨0, [], [], []⟩

def helloKey : SearchKey := ("hello".toList, none, none, 10, false)

def headKeyEn : HeadKey := (some "en".toList, none, none, 10)

def cachedSt : St := ⟨0, [(helloKey, demoResult, 60)], [], []⟩

/-- The state after one fetching `search_news` call on `demoEnv` from `emptySt`. -/
def demoSt1 : St :=
  ⟨0, [(helloKey, demoResult, 60)], [], [(.search helloKey, demoResult, 60)]⟩

def diskSt : St :=
  ⟨0, [], [],
   [(.search helloKey, demoResult, 60), (.headlines headKeyEn, demoResult, 30)]⟩

/-! ### Lemmas on the sanitizer -/

theorem isPySpace_normChar (c : Char) : isPySpace (normChar c) = isPySpace c := by
  unfold normChar
  cases h : isPySpace c
  · simp [h]
  · simp only [h, if_true]
    decide

theorem exists_normChar_of_mem_collapseWs :
    ∀ (l : Str), ∀ c ∈ collapseWs l, ∃ a ∈ l, c = normChar a := by
  intro l
  induction l with
  | nil => intro c hc; simp [collapseWs] at hc
  | cons a t ih =>
    cases t with
    | nil =>
      intro c hc
      simp only [collapseWs, List.mem_singleton] at hc
      exact ⟨a, by simp, hc⟩
    | cons b rest =>
      intro c hc
      by_cases hab : (isPySpace a && isPySpace b) = true
      · rw [collapseWs, if_pos hab] at hc
        obtain ⟨x, hx, hcx⟩ := ih c hc
        exact ⟨x, List.mem_cons_of_mem a hx, hcx⟩
      · rw [collapseWs, if_neg hab] at hc
        rcases List.mem_cons.mp hc with h | h
        · exact ⟨a, by simp, h⟩
        · obtain ⟨x, hx, hcx⟩ := ih c h
          exact ⟨x, List.mem_cons_of_mem a hx, hcx⟩

theorem collapseWs_ne_nil : ∀ (l : Str) (a : Char), collapseWs (a :: l) ≠ [] := by
  intro l
  induction l with
  | nil => intro a; simp [collapseWs]
  | cons b rest ih =>
    intro a
    by_cases hab : (isPySpace a && isPySpace b) = true
    · rw [collapseWs, if_pos hab]; exact ih b
    · rw [collapseWs, if_neg hab]; simp

theorem head?_collapseWs :
    ∀ (l : Str) (a : Char), (collapseWs (a :: l)).head? = some (normChar a) := by
  intro l
  induction l with
  | nil => intro a; simp [collapseWs]
  | cons b rest ih =>
    intro a
    by_cases hab : (isPySpace a && isPySpace b) = true
    · rw [collapseWs, if_pos hab, ih b]
      obtain ⟨ha, hb⟩ := Bool.and_eq_true_iff.mp hab
      simp [normChar, ha, hb]
    · rw [collapseWs, if_neg hab]; simp

theorem getLast?_collapseWs :
    ∀ (l : Str), (collapseWs l).getLast? = l.getLast?.map normChar := by
  intro l
  induction l with
  | nil => rfl
  | cons a t ih =>
    cases t with
    | nil => simp [collapseWs]
    | cons b rest =>
      by_cases hab : (isPySpace a && isPySpace b) = true
      · rw [collapseWs, if_pos hab, ih, List.getLast?_cons_cons]
      · rw [collapseWs, if_neg hab]
        cases hcb : collapseWs (b :: rest) with
        | nil => exact absurd hcb (collapseWs_ne_nil rest b)
        | cons y ys =>
          rw [List.getLast?_cons_cons, ← hcb, ih, List.getLast?_cons_cons]

theorem chain'_collapseWs :
    ∀ (l : Str),
      (collapseWs l).Chain' fun x y => ¬(isPySpace x = true ∧ isPySpace y = true) := by
  intro l
  induction l with
  | nil => simp [collapseWs]
  | cons a t ih =>
    cases t with
    | nil => simp [collapseWs]
    | cons b rest =>
      by_cases hab : (isPySpace a && isPySpace b) = true
      · rw [collapseWs, if_pos hab]; exact ih
      · rw [collapseWs, if_neg hab]
        rw [List.chain'_cons']
        refine ⟨?_, ih⟩
        intro y hy
        rw [head?_collapseWs] at hy
        have hyb : y = normChar b := by
          have := hy
          simp only [Option.mem_def, Option.some.injEq] at this
          exact this.symm
        rintro ⟨h1, h2⟩
        rw [isPySpace_normChar] at h1
        rw [hyb, isPySpace_normChar] at h2
        exact hab (by rw [h1, h2]; rfl)

theorem head?_dropWhile_false {p : Char → Bool} :
    ∀ {l : Str} {h : Char}, (l.dropWhile p).head? = some h → p h = false := by
  intro l
  induction l with
  | nil => intro h hh; simp [List.dropWhile] at hh
  | cons a t ih =>
    intro h hh
    rw [List.dropWhile_cons] at hh
    by_cases hp : p a = true
    · rw [if_pos hp] at hh; exact ih hh
    · rw [if_neg hp] at hh
      simp only [List.head?_cons, Option.some.injEq] at hh
      rw [← hh]; exact Bool.eq_false_iff.mpr hp

theorem dropTrailWs_front (l : Str) : dropTrailWs l <+: l := by
  unfold dropTrailWs
  conv_rhs => rw [← List.reverse_reverse l]
  exact List.reverse_prefix.mpr (List.dropWhile_suffix _)

theorem mem_stripWs {c : Char} {l : Str} (h : c ∈ stripWs l) : c ∈ l := by
  unfold stripWs at h
  have h1 : c ∈ l.dropWhile isPySpace :=
    (dropTrailWs_front (l.dropWhile isPySpace)).sublist.subset h
  exact (List.dropWhile_suffix isPySpace).sublist.subset h1

theorem head?_stripWs {l : Str} {c : Char} (h : (stripWs l).head? = some c) :
    isPySpace c = false := by
  unfold stripWs at h
  obtain ⟨t, ht⟩ := dropTrailWs_front (l.dropWhile isPySpace)
  have hh : (l.dropWhile isPySpace).head? = some c := by
    rw [← ht]
    cases hx : dropTrailWs (l.dropWhile isPySpace) with
    | nil => rw [hx] at h; simp at h
    | cons y ys =>
      rw [hx] at h
      simp only [List.head?_cons, Option.some.injEq] at h
      rw [List.cons_append, List.head?_cons, h]
  exact head?_dropWhile_false hh

theorem getLast?_stripWs {l : Str} {c : Char} (h : (stripWs l).getLast? = some c) :
    isPySpace c = false := by
  unfold stripWs dropTrailWs at h
  rw [List.getLast?_reverse] at h
  exact head?_dropWhile_false h

theorem mem_removeCtrl {c : Char} {l : Str} (h : c ∈ removeCtrl l) :
    c ∈ l ∧ isStrippedCtrl c = false := by
  unfold removeCtrl at h
  have := List.mem_filter.mp h
  exact ⟨this.1, by simpa using this.2⟩

theorem normalizeQuery_head {q : Str} {c : Char}
    (h : (normalizeQuery q).head? = some c) : isPySpace c = false := by
  unfold normalizeQuery at h
  cases hs : stripWs (removeCtrl q) with
  | nil => rw [hs] at h; simp [collapseWs] at h
  | cons a t =>
    rw [hs, head?_collapseWs] at h
    simp only [Option.some.injEq] at h
    have ha : isPySpace a = false := head?_stripWs (l := removeCtrl q) (by rw [hs]; rfl)
    rw [← h, isPySpace_normChar]
    exact ha

theorem normalizeQuery_getLast {q : Str} {c : Char}
    (h : (normalizeQuery q).getLast? = some c) : isPySpace c = false := by
  unfold normalizeQuery at h
  rw [getLast?_collapseWs] at h
  cases hg : (stripWs (removeCtrl q)).getLast? with
  | none => rw [hg] at h; simp at h
  | some a =>
    rw [hg] at h
    simp only [Option.map_some', Option.some.injEq] at h
    have := getLast?_stripWs hg
    rw [← h, isPySpace_normChar]
    exact this

theorem mem_normalizeQuery {q : Str} {c : Char} (h : c ∈ normalizeQuery q) :
    ∃ a, a ∈ q ∧ isStrippedCtrl a = false ∧ c = normChar a := by
  unfold normalizeQuery at h
  obtain ⟨a, ha, hc⟩ := exists_normChar_of_mem_collapseWs _ c h
  obtain ⟨haq, hctrl⟩ := mem_removeCtrl (mem_stripWs ha)
  exact ⟨a, haq, hctrl, hc⟩

theorem toNat_ge_space_of_not_ctrl_not_ws {a : Char}
    (h1 : isStrippedCtrl a = false) (h2 : isPySpace a = false) :
    0x20 ≤ a.toNat := by
  unfold isStrippedCtrl at h1
  unfold isPySpace at h2
  simp only [Bool.or_eq_false_iff, Bool.and_eq_false_iff, beq_eq_false_iff_ne,
    ne_eq, decide_eq_false_iff_not, Nat.not_le] at h1 h2
  omega

theorem normalizeQuery_no_c0 (q : Str) :
    ∀ c ∈ normalizeQuery q, 0x20 ≤ c.toNat := by
  intro c hc
  obtain ⟨a, -, hctrl, hca⟩ := mem_normalizeQuery hc
  subst hca
  unfold normChar
  by_cases hws : isPySpace a = true
  · rw [if_pos hws]; decide
  · rw [if_neg hws]
    exact toNat_ge_space_of_not_ctrl_not_ws hctrl (Bool.eq_false_iff.mpr hws)

theorem normalizeQuery_ws_eq_space (q : Str) :
    ∀ c ∈ normalizeQuery q, isPySpace c = true → c = spaceChar := by
  intro c hc hws
  obtain ⟨a, -, -, hca⟩ := mem_normalizeQuery hc
  subst hca
  unfold normChar at hws ⊢
  by_cases h : isPySpace a = true
  · rw [if_pos h]
  · rw [if_neg h] at hws
    exact absurd hws h

/-- C4 (amended): `sanitize_query` first normalizes the query — the C0
control characters outside tab/LF/CR are removed (DEL `0x7F` is not an
ASCII control character it strips), leading and trailing whitespace is
trimmed, and every whitespace run collapses to one plain space, so the
normalized text contains no character below `0x20`, every whitespace
character in it is the single space, no two adjacent whitespace
characters remain, and it neither starts nor ends with whitespace —
and then fails with an invalid-input error exactly when the normalized
text is empty or longer than 300 characters, returning the normalized
text otherwise. -/
theorem sanitize_query_characterization (q : Str) :
    (∀ c ∈ normalizeQuery q, 0x20 ≤ c.toNat)
    ∧ (∀ c ∈ normalizeQuery q, isPySpace c = true → c = spaceChar)
    ∧ ((normalizeQuery q).Chain' fun x y =>
        ¬(isPySpace x = true ∧ isPySpace y = true))
    ∧ (∀ c, (normalizeQuery q).head? = some c → isPySpace c = false)
    ∧ (∀ c, (normalizeQuery q).getLast? = some c → isPySpace c = false)
    ∧ (sanitize_query q = .ok (normalizeQuery q) ↔
        normalizeQuery q ≠ [] ∧ (normalizeQuery q).length ≤ MAX_QUERY_LEN)
    ∧ (∀ r, sanitize_query q = .ok r → r = normalizeQuery q)
    ∧ ((∃ msg, sanitize_query q = .error (.invalid msg)) ↔
        (normalizeQuery q = [] ∨ MAX_QUERY_LEN < (normalizeQuery q).length)) := by
  refine ⟨normalizeQuery_no_c0 q, normalizeQuery_ws_eq_space q, chain'_collapseWs _,
    fun c h => normalizeQuery_head h, fun c h => normalizeQuery_getLast h, ?_, ?_, ?_⟩
  · unfold sanitize_query
    by_cases h1 : normalizeQuery q = []
    · simp [h1]
    · by_cases h2 : (normalizeQuery q).length > MAX_QUERY_LEN
      · simp [h1, h2]
      · simp [h1, h2]
        omega
  · intro r hr
    unfold sanitize_query at hr
    by_cases h1 : normalizeQuery q = []
    · simp [h1] at hr
    · by_cases h2 : (normalizeQuery q).length > MAX_QUERY_LEN
      · simp [h1, h2] at hr
      · simp [h1, h2] at hr
        exact hr.symm
  · unfold sanitize_query
    by_cases h1 : normalizeQuery q = []
    · simp [h1]
    · by_cases h2 : (normalizeQuery q).length > MAX_QUERY_LEN
      · simp [h1, h2]
      · simp [h1, h2]

/-- C4 counterexample: DEL (code `0x7F`) is an ASCII control character
and not whitespace, yet `sanitize_query` keeps it, so the sanitizer
does not strip all ASCII control characters other than common
whitespace. -/
theorem sanitize_query_keeps_del :
    sanitize_query [Char.ofNat 97, Char.ofNat 0x7F, Char.ofNat 98] =
      .ok [Char.ofNat 97, Char.ofNat 0x7F, Char.ofNat 98]
    ∧ Char.ofNat 0x7F ∈ normalizeQuery [Char.ofNat 97, Char.ofNat 0x7F, Char.ofNat 98]
    ∧ (Char.ofNat 0x7F).toNat = 0x7F
    ∧ isPySpace (Char.ofNat 0x7F) = false := by
  decide

/-- Witness for the amended C4: a 300-character normalized query is
accepted and a 301-character one is rejected. -/
theorem sanitize_query_characterization_witness :
    sanitize_query (List.replicate 300 (Char.ofNat 120)) =
      .ok (normalizeQuery (List.replicate 300 (Char.ofNat 120)))
    ∧ (∃ msg, sanitize_query (List.replicate 301 (Char.ofNat 120)) =
        .error (.invalid msg)) :=
  ⟨((sanitize_query_characterization
      (List.replicate 300 (Char.ofNat 120))).2.2.2.2.2.1).mpr (by decide),
   ((sanitize_query_characterization
      (List.replicate 301 (Char.ofNat 120))).2.2.2.2.2.2.2).mpr (by decide)⟩

/-! ### Claim C3: validate_max -/

/-- C3 counterexample: the pydantic field-default sentinel carrying
default `10` is not an integer value, yet `validate_max` accepts it
and returns `10`, refuting that `validate_max` succeeds exactly on
integer values in `[1, 100]` and that every field-default object
fails. -/
theorem validate_max_accepts_sentinel :
    validate_max (.fieldInfo (.int 10)) = .ok 10
    ∧ ∀ n : Int, MaxVal.fieldInfo (.int 10) ≠ MaxVal.int n :=
  ⟨by decide, fun _ h => MaxVal.noConfusion h⟩

/-- C3 (amended): `validate_max` succeeds exactly on integer values in
the inclusive range `[1, 100]` and on field-default sentinels whose
default is such an integer (unwrapping to that integer); every other
value — including a sentinel whose default is not an integer — fails
with an invalid-input error identifying the `max` parameter. -/
theorem validate_max_characterization (v : MaxVal) :
    (∀ n : Int, validate_max v = .ok n ↔
      ((v = .int n ∨ v = .fieldInfo (.int n)) ∧ 1 ≤ n ∧ n ≤ 100))
    ∧ ((∀ n : Int, ¬((v = .int n ∨ v = .fieldInfo (.int n)) ∧ 1 ≤ n ∧ n ≤ 100)) →
        validate_max v = .error (.invalid maxIntMsg) ∨
        validate_max v = .error (.invalid maxRangeMsg)) := by
  cases v with
  | int m =>
    constructor
    · intro n
      by_cases h : 1 ≤ m ∧ m ≤ 100
      · simp only [validate_max, if_pos h]
        constructor
        · intro he
          injection he with he
          subst he
          exact ⟨Or.inl rfl, h⟩
        · rintro ⟨he | he, h1, h2⟩
          · injection he with he
            subst he
            rfl
          · cases he
      · simp only [validate_max, if_neg h]
        constructor
        · intro he
          exact Except.noConfusion he
        · rintro ⟨he | he, h1, h2⟩
          · injection he with he
            subst he
            exact absurd ⟨h1, h2⟩ h
          · cases he
    · intro hno
      by_cases h : 1 ≤ m ∧ m ≤ 100
      · exact absurd ⟨Or.inl rfl, h⟩ (hno m)
      · right
        simp only [validate_max, if_neg h]
  | fieldInfo d =>
    cases d with
    | int m =>
      constructor
      · intro n
        by_cases h : 1 ≤ m ∧ m ≤ 100
        · simp only [validate_max, if_pos h]
          constructor
          · intro he
            injection he with he
            subst he
            exact ⟨Or.inr rfl, h⟩
          · rintro ⟨he | he, h1, h2⟩
            · cases he
            · injection he with he
              injection he with he
              subst he
              rfl
        · simp only [validate_max, if_neg h]
          constructor
          · intro he
            exact Except.noConfusion he
          · rintro ⟨he | he, h1, h2⟩
            · cases he
            · injection he with he
              injection he with he
              subst he
              exact absurd ⟨h1, h2⟩ h
      · intro hno
        by_cases h : 1 ≤ m ∧ m ≤ 100
        · exact absurd ⟨Or.inr rfl, h⟩ (hno m)
        · right
          simp only [validate_max, if_neg h]
    | fieldInfo d2 =>
      refine ⟨fun n => ⟨fun he => Except.noConfusion he, ?_⟩, fun _ => Or.inl rfl⟩
      rintro ⟨he | he, -, -⟩
      · cases he
      · injection he with he
        cases he
    | other =>
      refine ⟨fun n => ⟨fun he => Except.noConfusion he, ?_⟩, fun _ => Or.inl rfl⟩
      rintro ⟨he | he, -, -⟩
      · cases he
      · injection he with he
        cases he
  | other =>
    refine ⟨fun n => ⟨fun he => Except.noConfusion he, ?_⟩, fun _ => Or.inl rfl⟩
    rintro ⟨he | he, -, -⟩ <;> cases he

/-- Witness for the amended C3: the boundary integers, the in-range
sentinel, and two failing inputs. -/
theorem validate_max_characterization_witness :
    validate_max (.int 1) = .ok 1
    ∧ validate_max (.int 100) = .ok 100
    ∧ (validate_max (.int 0) = .error (.invalid maxIntMsg) ∨
        validate_max (.int 0) = .error (.invalid maxRangeMsg))
    ∧ (validate_max (.int 101) = .error (.invalid maxIntMsg) ∨
        validate_max (.int 101) = .error (.invalid maxRangeMsg))
    ∧ (validate_max .other = .error (.invalid maxIntMsg) ∨
        validate_max .other = .error (.invalid maxRangeMsg)) :=
  ⟨((validate_max_characterization (.int 1)).1 1).mpr (by decide),
   ((validate_max_characterization (.int 100)).1 100).mpr (by decide),
   (validate_max_characterization (.int 0)).2 (by
      rintro n ⟨he | he, h1, h2⟩
      · injection he with he
        omega
      · cases he),
   (validate_max_characterization (.int 101)).2 (by
      rintro n ⟨he | he, h1, h2⟩
      · injection he with he
        omega
      · cases he),
   (validate_max_characterization .other).2 (by
      rintro n ⟨he | he, -, -⟩ <;> cases he)⟩

/-! ### Claim C5: response normalization -/

/-- C5: the normalizer maps each raw article, in input order, to the
`Article` shape, defaulting an absent title or url to the empty string
and keeping description, source name, published timestamp and image
absent when missing; the reported total is the provider total when
present, else the number of normalized articles. -/
theorem normalize_articles_characterization (raw : RawResponse) :
    (normalize_articles raw).articles.length = (raw.articles.getD []).length
    ∧ (∀ i : Nat, (normalize_articles raw).articles[i]? =
        ((raw.articles.getD [])[i]?).map normalizeArticle)
    ∧ (∀ a : RawArticle,
        (a.title = none → (normalizeArticle a).title = [])
        ∧ (a.url = none → (normalizeArticle a).url = [])
        ∧ (normalizeArticle a).description = a.description
        ∧ (a.source = .absent → (normalizeArticle a).source = none)
        ∧ (normalizeArticle a).published_at = a.publishedAt
        ∧ (normalizeArticle a).image = a.image)
    ∧ (∀ t, raw.totalArticles = some t → (normalize_articles raw).total = t)
    ∧ (raw.totalArticles = none →
        (normalize_articles raw).total = (normalize_articles raw).articles.length) := by
  refine ⟨by simp [normalize_articles], ?_, ?_, ?_, ?_⟩
  · intro i
    simp [normalize_articles]
  · intro a
    exact ⟨fun h => by simp [normalizeArticle, h],
      fun h => by simp [normalizeArticle, h], rfl,
      fun h => by simp [normalizeArticle, h, sourceName], rfl, rfl⟩
  · intro t ht
    simp [normalize_articles, ht]
  · intro ht
    simp [normalize_articles, ht]

/-- Witness for C5: an article with every optional field missing
normalizes to empty title/url and absent optional fields, and a
response without a provider total reports the article count. -/
theorem normalize_articles_characterization_witness :
    (normalizeArticle sparseRaw).title = []
    ∧ (normalizeArticle sparseRaw).url = []
    ∧ (normalizeArticle sparseRaw).source = none
    ∧ (normalize_articles ⟨none, some [sparseRaw]⟩).total = 1 :=
  ⟨((normalize_articles_characterization ⟨none, some [sparseRaw]⟩).2.2.1 sparseRaw).1 rfl,
   ((normalize_articles_characterization ⟨none, some [sparseRaw]⟩).2.2.1 sparseRaw).2.1 rfl,
   ((normalize_articles_characterization ⟨none, some [sparseRaw]⟩).2.2.1
      sparseRaw).2.2.2.1 rfl,
   by
    have h := (normalize_articles_characterization ⟨none, some [sparseRaw]⟩).2.2.2.2 rfl
    rw [h]
    decide⟩

/-! ### Claim C6: parameter omission -/

theorem mem_filterNone {params : List (String × Option PVal)} {k : String}
    {v : PVal} : (k, v) ∈ filterNone params ↔ (k, some v) ∈ params := by
  unfold filterNone
  rw [List.mem_filterMap]
  constructor
  · rintro ⟨⟨k2, ow⟩, hp, he⟩
    cases ow with
    | none => simp at he
    | some w =>
      simp only [Option.map_some', Option.some.injEq, Prod.mk.injEq] at he
      obtain ⟨hk, hv⟩ := he
      subst hk
      subst hv
      exact hp
  · intro h
    exact ⟨(k, some v), h, rfl⟩

theorem mem_mergedParams {apiKey : Str} {params : List (String × Option PVal)}
    {k : String} {v : PVal} :
    (k, v) ∈ mergedParams apiKey params ↔
      (k = "apikey" ∧ v = .s apiKey) ∨ (k, some v) ∈ params := by
  unfold mergedParams
  rw [List.mem_cons, mem_filterNone]
  simp [Prod.ext_iff]

/-- C6: precisely the parameters whose value is absent are dropped
from the outgoing request (an empty-string value is still sent as the
quantification over all values includes it), the static API credential
is merged in, and unsupplied lang, country, category or in never
appear in the upstream request. -/
theorem params_omission (apiKey : Str) (params : List (String × Option PVal))
    (q : Str) (lang country category : Option Str) (m : Int) (it : Bool) :
    (∀ (k : String) (v : PVal), (k, v) ∈ filterNone params ↔ (k, some v) ∈ params)
    ∧ ("apikey", PVal.s apiKey) ∈ mergedParams apiKey params
    ∧ (lang = none → ∀ v,
        ("lang", v) ∉ mergedParams apiKey (searchParams q lang country m it))
    ∧ (country = none → ∀ v,
        ("country", v) ∉ mergedParams apiKey (searchParams q lang country m it))
    ∧ (it = false → ∀ v,
        ("in", v) ∉ mergedParams apiKey (searchParams q lang country m it))
    ∧ (lang = none → ∀ v,
        ("lang", v) ∉ mergedParams apiKey (headParams lang country category m))
    ∧ (country = none → ∀ v,
        ("country", v) ∉ mergedParams apiKey (headParams lang country category m))
    ∧ (category = none → ∀ v,
        ("category", v) ∉ mergedParams apiKey (headParams lang country category m)) := by
  refine ⟨fun k v => mem_filterNone, mem_mergedParams.mpr (Or.inl ⟨rfl, rfl⟩),
    ?_, ?_, ?_, ?_, ?_, ?_⟩
  all_goals
    rintro rfl v hv
    rcases mem_mergedParams.mp hv with ⟨hk, -⟩ | hmem
    · exact absurd hk (by decide)
    · simp [searchParams, headParams] at hmem

/-- Witness for C6: the credential is present in a concrete merged
request, and a concrete absent parameter is not. -/
theorem params_omission_witness :
    ("apikey", PVal.s "k".toList) ∈
      mergedParams "k".toList (searchParams "hello".toList none none 10 false)
    ∧ ("lang", PVal.s []) ∉
      mergedParams "k".toList (searchParams "hello".toList none none 10 false)
    ∧ ("q", PVal.s []) ∈
      mergedParams "k".toList (searchParams [] none none 10 false) :=
  ⟨(params_omission "k".toList (searchParams "hello".toList none none 10 false)
      "hello".toList none none none 10 false).2.1,
   (params_omission "k".toList [] "hello".toList none none none 10 false).2.2.1
      rfl (PVal.s []),
   by decide⟩

/-! ### Claim C8: non-200 upstream responses -/

/-- C8: when the upstream answers with a non-200 status, the fetch
fails with an upstream error carrying that status code and a body
excerpt of at most 300 characters. -/
theorem fetch_non200 (env : Env) (ep : String)
    (params : List (String × Option PVal)) (k : Str)
    (hk : get_api_key env = .ok k)
    (hs : (env.upstream ep (mergedParams k params)).status ≠ 200) :
    fetch env ep params =
      ⟨.error (.upstream (env.upstream ep (mergedParams k params)).status
          ((env.upstream ep (mergedParams k params)).text.take 300)), 1⟩
    ∧ ((env.upstream ep (mergedParams k params)).text.take 300).length ≤ 300 := by
  constructor
  · unfold fetch
    rw [hk]
    simp [hs]
  · exact List.length_take_le _ _

/-- Witness for C8: a concrete 500 response yields the upstream error
with its status and body. -/
theorem fetch_non200_witness :
    fetch demoEnv500 "search" (searchParams "hello".toList none none 10 false) =
      ⟨.error (.upstream 500 "boom".toList), 1⟩
    ∧ ("boom".toList.take 300).length ≤ 300 := by
  have h := fetch_non200 demoEnv500 "search"
    (searchParams "hello".toList none none 10 false) "k".toList (by decide) (by decide)
  exact ⟨h.1.trans (by decide), h.2⟩

/-! ### Lemmas on the cache tiers and the tool-call flow -/

theorem lookupTTL_nil {κ : Type} [DecidableEq κ] (now : Nat) (k : κ) :
    lookupTTL now k ([] : List (κ × NormResult × Nat)) = none := rfl

theorem lookupTTL_insert_self {κ : Type} [DecidableEq κ] (now : Nat) (k : κ)
    (v : NormResult) (exp : Nat) (m : List (κ × NormResult × Nat))
    (h : now < exp) : lookupTTL now k (insertTTL k v exp m) = some v := by
  unfold lookupTTL insertTTL
  rw [List.find?_cons_of_pos _ (by simp)]
  simp [h]

theorem get_api_key_none {env : Env} (h : env.apiKey = none) :
    get_api_key env = .error .missingKey := by
  unfold get_api_key
  rw [h]

theorem fetch_key_error {env : Env} {ep : String}
    {ps : List (String × Option PVal)} {e : Err}
    (h : get_api_key env = .error e) : fetch env ep ps = ⟨.error e, 0⟩ := by
  unfold fetch
  rw [h]

theorem fetch_ok_inv {env : Env} {ep : String} {ps : List (String × Option PVal)}
    {d : RawResponse} {n : Nat} (h : fetch env ep ps = ⟨.ok d, n⟩) :
    n = 1 ∧ ∃ k, get_api_key env = .ok k
      ∧ (env.upstream ep (mergedParams k ps)).status = 200
      ∧ (env.upstream ep (mergedParams k ps)).json = d := by
  unfold fetch at h
  cases hk : get_api_key env with
  | error e =>
    rw [hk] at h
    simp at h
  | ok k =>
    rw [hk] at h
    by_cases hs : (env.upstream ep (mergedParams k ps)).status ≠ 200
    · simp only [if_pos hs] at h
      simp at h
    · simp only [if_neg hs] at h
      push_neg at hs
      simp only [FetchOut.mk.injEq, Except.ok.injEq] at h
      exact ⟨h.2.symm, k, rfl, hs, h.1⟩

theorem search_news_sanitize_error (env : Env) (st : St) (q : Str)
    (lang country : Option Str) (maxArg : MaxVal) (it : Bool) {e : Err}
    (h : sanitize_query q = .error e) :
    search_news env st q lang country maxArg it = ⟨.error e, st, 0⟩ := by
  simp only [search_news, h]

theorem search_news_validate_error (env : Env) (st : St) (q : Str)
    (lang country : Option Str) (maxArg : MaxVal) (it : Bool) {q2 : Str} {e : Err}
    (hq : sanitize_query q = .ok q2) (hm : validate_max maxArg = .error e) :
    search_news env st q lang country maxArg it = ⟨.error e, st, 0⟩ := by
  simp only [search_news, hq, hm]

theorem search_news_mem_hit (env : Env) (st : St) (q : Str)
    (lang country : Option Str) (maxArg : MaxVal) (it : Bool)
    {q2 : Str} {m : Int} {v : NormResult}
    (hq : sanitize_query q = .ok q2) (hm : validate_max maxArg = .ok m)
    (hmem : lookupTTL st.now (q2, lang, country, m, it) st.searchMem = some v) :
    search_news env st q lang country maxArg it = ⟨.ok v, st, 0⟩ := by
  simp only [search_news, hq, hm, hmem]

theorem search_news_disk_hit (env : Env) (st : St) (q : Str)
    (lang country : Option Str) (maxArg : MaxVal) (it : Bool)
    {q2 : Str} {m : Int} {v : NormResult}
    (hq : sanitize_query q = .ok q2) (hm : validate_max maxArg = .ok m)
    (hmem : lookupTTL st.now (q2, lang, country, m, it) st.searchMem = none)
    (hcfg : env.diskConfigured = true)
    (hdisk : lookupTTL st.now (DiskKey.search (q2, lang, country, m, it))
        st.disk = some v) :
    search_news env st q lang country maxArg it = ⟨.ok v, st, 0⟩ := by
  simp only [search_news, hq, hm, hmem, hcfg, if_true, hdisk]

theorem search_news_fetch_error (env : Env) (st : St) (q : Str)
    (lang country : Option Str) (maxArg : MaxVal) (it : Bool)
    {q2 : Str} {m : Int} {e : Err} {n : Nat}
    (hq : sanitize_query q = .ok q2) (hm : validate_max maxArg = .ok m)
    (hmem : lookupTTL st.now (q2, lang, country, m, it) st.searchMem = none)
    (hdisk : (if env.diskConfigured then
        lookupTTL st.now (DiskKey.search (q2, lang, country, m, it)) st.disk
      else none) = none)
    (hf : fetch env "search" (searchParams q2 lang country m it) = ⟨.error e, n⟩) :
    search_news env st q lang country maxArg it = ⟨.error e, st, n⟩ := by
  simp only [search_news, hq, hm, hmem, hdisk, hf]

theorem search_news_fetch_ok (env : Env) (st : St) (q : Str)
    (lang country : Option Str) (maxArg : MaxVal) (it : Bool)
    {q2 : Str} {m : Int} {data : RawResponse} {n : Nat}
    (hq : sanitize_query q = .ok q2) (hm : validate_max maxArg = .ok m)
    (hmem : lookupTTL st.now (q2, lang, country, m, it) st.searchMem = none)
    (hdisk : (if env.diskConfigured then
        lookupTTL st.now (DiskKey.search (q2, lang, country, m, it)) st.disk
      else none) = none)
    (hf : fetch env "search" (searchParams q2 lang country m it) = ⟨.ok data, n⟩) :
    search_news env st q lang country maxArg it =
      ⟨.ok (normalize_articles data),
       { st with
          searchMem := insertTTL (q2, lang, country, m, it)
            (normalize_articles data) (st.now + 60) st.searchMem
          disk := if env.diskConfigured then
              insertTTL (DiskKey.search (q2, lang, country, m, it))
                (normalize_articles data) (st.now + 60) st.disk
            else st.disk },
       n⟩ := by
  simp only [search_news, hq, hm, hmem, hdisk, hf]

theorem top_headlines_validate_error (env : Env) (st : St)
    (lang country category : Option Str) (maxArg : MaxVal) {e : Err}
    (hm : validate_max maxArg = .error e) :
    top_headlines env st lang country category maxArg = ⟨.error e, st, 0⟩ := by
  simp only [top_headlines, hm]

theorem top_headlines_mem_hit (env : Env) (st : St)
    (lang country category : Option Str) (maxArg : MaxVal)
    {m : Int} {v : NormResult}
    (hm : validate_max maxArg = .ok m)
    (hmem : lookupTTL st.now (lang, country, category, m) st.headlineMem = some v) :
    top_headlines env st lang country category maxArg = ⟨.ok v, st, 0⟩ := by
  simp only [top_headlines, hm, hmem]

theorem top_headlines_disk_hit (env : Env) (st : St)
    (lang country category : Option Str) (maxArg : MaxVal)
    {m : Int} {v : NormResult}
    (hm : validate_max maxArg = .ok m)
    (hmem : lookupTTL st.now (lang, country, category, m) st.headlineMem = none)
    (hcfg : env.diskConfigured = true)
    (hdisk : lookupTTL st.now (DiskKey.headlines (lang, country, category, m))
        st.disk = some v) :
    top_headlines env st lang country category maxArg = ⟨.ok v, st, 0⟩ := by
  simp only [top_headlines, hm, hmem, hcfg, if_true, hdisk]

theorem top_headlines_fetch_error (env : Env) (st : St)
    (lang country category : Option Str) (maxArg : MaxVal)
    {m : Int} {e : Err} {n : Nat}
    (hm : validate_max maxArg = .ok m)
    (hmem : lookupTTL st.now (lang, country, category, m) st.headlineMem = none)
    (hdisk : (if env.diskConfigured then
        lookupTTL st.now (DiskKey.headlines (lang, country, category, m)) st.disk
      else none) = none)
    (hf : fetch env "top-headlines" (headParams lang country category m) =
        ⟨.error e, n⟩) :
    top_headlines env st lang country category maxArg = ⟨.error e, st, n⟩ := by
  simp only [top_headlines, hm, hmem, hdisk, hf]

theorem top_headlines_fetch_ok (env : Env) (st : St)
    (lang country category : Option Str) (maxArg : MaxVal)
    {m : Int} {data : RawResponse} {n : Nat}
    (hm : validate_max maxArg = .ok m)
    (hmem : lookupTTL st.now (lang, country, category, m) st.headlineMem = none)
    (hdisk : (if env.diskConfigured then
        lookupTTL st.now (DiskKey.headlines (lang, country, category, m)) st.disk
      else none) = none)
    (hf : fetch env "top-headlines" (headParams lang country category m) =
        ⟨.ok data, n⟩) :
    top_headlines env st lang country category maxArg =
      ⟨.ok (normalize_articles data),
       { st with
          headlineMem := insertTTL (lang, country, category, m)
            (normalize_articles data) (st.now + 30) st.headlineMem
          disk := if env.diskConfigured then
              insertTTL (DiskKey.headlines (lang, country, category, m))
                (normalize_articles data) (st.now + 30) st.disk
            else st.disk },
       n⟩ := by
  simp only [top_headlines, hm, hmem, hdisk, hf]

theorem search_news_disk_hit2 (env : Env) (st : St) (q : Str)
    (lang country : Option Str) (maxArg : MaxVal) (it : Bool)
    {q2 : Str} {m : Int} {v : NormResult}
    (hq : sanitize_query q = .ok q2) (hm : validate_max maxArg = .ok m)
    (hmem : lookupTTL st.now (q2, lang, country, m, it) st.searchMem = none)
    (hdisk : (if env.diskConfigured then
        lookupTTL st.now (DiskKey.search (q2, lang, country, m, it)) st.disk
      else none) = some v) :
    search_news env st q lang country maxArg it = ⟨.ok v, st, 0⟩ := by
  simp only [search_news, hq, hm, hmem, hdisk]

theorem top_headlines_disk_hit2 (env : Env) (st : St)
    (lang country category : Option Str) (maxArg : MaxVal)
    {m : Int} {v : NormResult}
    (hm : validate_max maxArg = .ok m)
    (hmem : lookupTTL st.now (lang, country, category, m) st.headlineMem = none)
    (hdisk : (if env.diskConfigured then
        lookupTTL st.now (DiskKey.headlines (lang, country, category, m)) st.disk
      else none) = some v) :
    top_headlines env st lang country category maxArg = ⟨.ok v, st, 0⟩ := by
  simp only [top_headlines, hm, hmem, hdisk]

theorem search_news_ok_inv {env : Env} {st : St} {q : Str}
    {lang country : Option Str} {maxArg : MaxVal} {it : Bool}
    {r : NormResult} {st2 : St} {n : Nat}
    (h : search_news env st q lang country maxArg it = ⟨.ok r, st2, n⟩) :
    ∃ q2 m, sanitize_query q = .ok q2 ∧ validate_max maxArg = .ok m ∧
      ((lookupTTL st.now (q2, lang, country, m, it) st.searchMem = some r
          ∧ st2 = st ∧ n = 0)
        ∨ (lookupTTL st.now (q2, lang, country, m, it) st.searchMem = none
          ∧ (if env.diskConfigured then
              lookupTTL st.now (DiskKey.search (q2, lang, country, m, it)) st.disk
            else none) = some r
          ∧ st2 = st ∧ n = 0)
        ∨ (lookupTTL st.now (q2, lang, country, m, it) st.searchMem = none
          ∧ (if env.diskConfigured then
              lookupTTL st.now (DiskKey.search (q2, lang, country, m, it)) st.disk
            else none) = none
          ∧ ∃ data,
              fetch env "search" (searchParams q2 lang country m it) = ⟨.ok data, n⟩
              ∧ r = normalize_articles data
              ∧ st2 = { st with
                  searchMem := insertTTL (q2, lang, country, m, it) r
                    (st.now + 60) st.searchMem
                  disk := if env.diskConfigured then
                      insertTTL (DiskKey.search (q2, lang, country, m, it)) r
                        (st.now + 60) st.disk
                    else st.disk })) := by
  cases hq : sanitize_query q with
  | error e =>
    rw [search_news_sanitize_error env st q lang country maxArg it hq] at h
    simp at h
  | ok q2 =>
    cases hm : validate_max maxArg with
    | error e =>
      rw [search_news_validate_error env st q lang country maxArg it hq hm] at h
      simp at h
    | ok m =>
      refine ⟨q2, m, rfl, rfl, ?_⟩
      cases hmem : lookupTTL st.now (q2, lang, country, m, it) st.searchMem with
      | some v =>
        rw [search_news_mem_hit env st q lang country maxArg it hq hm hmem] at h
        simp only [ToolOut.mk.injEq, Except.ok.injEq] at h
        obtain ⟨hv, hst, hn⟩ := h
        exact Or.inl ⟨by rw [hv], hst.symm, hn.symm⟩
      | none =>
        cases hdisk : (if env.diskConfigured then
            lookupTTL st.now (DiskKey.search (q2, lang, country, m, it)) st.disk
          else none) with
        | some v =>
          rw [search_news_disk_hit2 env st q lang country maxArg it hq hm hmem
            hdisk] at h
          simp only [ToolOut.mk.injEq, Except.ok.injEq] at h
          obtain ⟨hv, hst, hn⟩ := h
          exact Or.inr (Or.inl ⟨rfl, by rw [hv], hst.symm, hn.symm⟩)
        | none =>
          cases hf : fetch env "search" (searchParams q2 lang country m it) with
          | mk fr fc =>
            cases fr with
            | error e =>
              rw [search_news_fetch_error env st q lang country maxArg it hq hm
                hmem hdisk hf] at h
              simp at h
            | ok data =>
              rw [search_news_fetch_ok env st q lang country maxArg it hq hm
                hmem hdisk hf] at h
              simp only [ToolOut.mk.injEq, Except.ok.injEq] at h
              obtain ⟨hv, hst, hn⟩ := h
              subst hv
              exact Or.inr (Or.inr ⟨rfl, rfl, data, by rw [hn], rfl, hst.symm⟩)

theorem search_news_error_state {env : Env} {st : St} {q : Str}
    {lang country : Option Str} {maxArg : MaxVal} {it : Bool}
    {e : Err} {st2 : St} {n : Nat}
    (h : search_news env st q lang country maxArg it = ⟨.error e, st2, n⟩) :
    st2 = st := by
  cases hq : sanitize_query q with
  | error e2 =>
    rw [search_news_sanitize_error env st q lang country maxArg it hq] at h
    simp only [ToolOut.mk.injEq] at h
    exact h.2.1.symm
  | ok q2 =>
    cases hm : validate_max maxArg with
    | error e2 =>
      rw [search_news_validate_error env st q lang country maxArg it hq hm] at h
      simp only [ToolOut.mk.injEq] at h
      exact h.2.1.symm
    | ok m =>
      cases hmem : lookupTTL st.now (q2, lang, country, m, it) st.searchMem with
      | some v =>
        rw [search_news_mem_hit env st q lang country maxArg it hq hm hmem] at h
        simp at h
      | none =>
        cases hdisk : (if env.diskConfigured then
            lookupTTL st.now (DiskKey.search (q2, lang, country, m, it)) st.disk
          else none) with
        | some v =>
          rw [search_news_disk_hit2 env st q lang country maxArg it hq hm hmem
            hdisk] at h
          simp at h
        | none =>
          cases hf : fetch env "search" (searchParams q2 lang country m it) with
          | mk fr fc =>
            cases fr with
            | error e2 =>
              rw [search_news_fetch_error env st q lang country maxArg it hq hm
                hmem hdisk hf] at h
              simp only [ToolOut.mk.injEq] at h
              exact h.2.1.symm
            | ok data =>
              rw [search_news_fetch_ok env st q lang country maxArg it hq hm
                hmem hdisk hf] at h
              simp at h

theorem top_headlines_error_state {env : Env} {st : St}
    {lang country category : Option Str} {maxArg : MaxVal}
    {e : Err} {st2 : St} {n : Nat}
    (h : top_headlines env st lang country category maxArg = ⟨.error e, st2, n⟩) :
    st2 = st := by
  cases hm : validate_max maxArg with
  | error e2 =>
    rw [top_headlines_validate_error env st lang country category maxArg hm] at h
    simp only [ToolOut.mk.injEq] at h
    exact h.2.1.symm
  | ok m =>
    cases hmem : lookupTTL st.now (lang, country, category, m) st.headlineMem with
    | some v =>
      rw [top_headlines_mem_hit env st lang country category maxArg hm hmem] at h
      simp at h
    | none =>
      cases hdisk : (if env.diskConfigured then
          lookupTTL st.now (DiskKey.headlines (lang, country, category, m)) st.disk
        else none) with
      | some v =>
        rw [top_headlines_disk_hit2 env st lang country category maxArg hm hmem
          hdisk] at h
        simp at h
      | none =>
        cases hf : fetch env "top-headlines" (headParams lang country category m) with
        | mk fr fc =>
          cases fr with
          | error e2 =>
            rw [top_headlines_fetch_error env st lang country category maxArg hm
              hmem hdisk hf] at h
            simp only [ToolOut.mk.injEq] at h
            exact h.2.1.symm
          | ok data =>
            rw [top_headlines_fetch_ok env st lang country category maxArg hm
              hmem hdisk hf] at h
            simp at h

/-! ### Claim C1: sanitized queries share the cache entry -/

/-- C1: raw queries with equal sanitizations yield the same cache key,
so after any successful `search_news` call, repeating the call with a
raw query that sanitizes identically and otherwise identical parameters
returns the identical result, leaves the state unchanged, and performs
no upstream fetch. -/
theorem search_news_sanitized_idempotent (env : Env) (st : St) (q1 q2 : Str)
    (lang country : Option Str) (maxArg : MaxVal) (it : Bool)
    (r : NormResult) (st2 : St) (n : Nat)
    (hq : sanitize_query q1 = sanitize_query q2)
    (h1 : search_news env st q1 lang country maxArg it = ⟨.ok r, st2, n⟩) :
    search_news env st2 q2 lang country maxArg it = ⟨.ok r, st2, 0⟩ := by
  obtain ⟨q3, m, hs, hm, hcase⟩ := search_news_ok_inv h1
  have hq2 : sanitize_query q2 = .ok q3 := hq ▸ hs
  rcases hcase with ⟨hmem, hst, -⟩ | ⟨hmem, hdisk, hst, -⟩ |
    ⟨hmem, hdisk, data, hf, hr, hst⟩
  · subst hst
    exact search_news_mem_hit env st2 q2 lang country maxArg it hq2 hm hmem
  · subst hst
    exact search_news_disk_hit2 env st2 q2 lang country maxArg it hq2 hm hmem hdisk
  · subst hst
    subst hr
    refine search_news_mem_hit env _ q2 lang country maxArg it hq2 hm ?_
    exact lookupTTL_insert_self st.now (q3, lang, country, m, it)
      (normalize_articles data) (st.now + 60) st.searchMem (by omega)

/-- Witness for C1: a fetching call on the raw query with extra
whitespace, then a cache-served call on the plain query. -/
theorem search_news_sanitized_idempotent_witness :
    search_news demoEnv demoSt1 ("hello".toList) none none (.int 10) false =
      ⟨.ok demoResult, demoSt1, 0⟩ :=
  search_news_sanitized_idempotent demoEnv emptySt ("  hello  ".toList)
    ("hello".toList) none none (.int 10) false demoResult demoSt1 1
    (by decide) (by decide)

/-! ### Claim C2: the two-tier cache protocol -/

/-- C2: the in-memory tier is consulted first, then (on a memory miss,
when configured) the persistent tier under the endpoint-tagged key,
each hit returning the stored result with no upstream request and no
state change; only when both tiers miss is the upstream fetched, after
which the result is stored into memory and, when configured, onto disk,
expiring 60 seconds after now for search and 30 seconds after now for
headlines; consequently, after a fetching search call, clearing the
memory tier still lets the repeated call be served from disk, equal to
the original result, with no upstream request. -/
theorem two_tier_cache_protocol (env : Env) (st : St) (q : Str)
    (lang country category : Option Str) (maxArg : MaxVal) (it : Bool)
    (q2 : Str) (m : Int)
    (hq : sanitize_query q = .ok q2) (hm : validate_max maxArg = .ok m) :
    (∀ v, lookupTTL st.now (q2, lang, country, m, it) st.searchMem = some v →
      search_news env st q lang country maxArg it = ⟨.ok v, st, 0⟩)
    ∧ (∀ v, lookupTTL st.now (q2, lang, country, m, it) st.searchMem = none →
      env.diskConfigured = true →
      lookupTTL st.now (DiskKey.search (q2, lang, country, m, it)) st.disk = some v →
      search_news env st q lang country maxArg it = ⟨.ok v, st, 0⟩)
    ∧ (∀ data n,
      lookupTTL st.now (q2, lang, country, m, it) st.searchMem = none →
      (if env.diskConfigured then
          lookupTTL st.now (DiskKey.search (q2, lang, country, m, it)) st.disk
        else none) = none →
      fetch env "search" (searchParams q2 lang country m it) = ⟨.ok data, n⟩ →
      search_news env st q lang country maxArg it =
        ⟨.ok (normalize_articles data),
         { st with
            searchMem := insertTTL (q2, lang, country, m, it)
              (normalize_articles data) (st.now + 60) st.searchMem
            disk := if env.diskConfigured then
                insertTTL (DiskKey.search (q2, lang, country, m, it))
                  (normalize_articles data) (st.now + 60) st.disk
              else st.disk },
         1⟩)
    ∧ (∀ r st1, env.diskConfigured = true →
      search_news env st q lang country maxArg it = ⟨.ok r, st1, 1⟩ →
      search_news env { st1 with searchMem := [] } q lang country maxArg it =
        ⟨.ok r, { st1 with searchMem := [] }, 0⟩)
    ∧ (∀ v, lookupTTL st.now (lang, country, category, m) st.headlineMem = some v →
      top_headlines env st lang country category maxArg = ⟨.ok v, st, 0⟩)
    ∧ (∀ data n,
      lookupTTL st.now (lang, country, category, m) st.headlineMem = none →
      (if env.diskConfigured then
          lookupTTL st.now (DiskKey.headlines (lang, country, category, m)) st.disk
        else none) = none →
      fetch env "top-headlines" (headParams lang country category m) = ⟨.ok data, n⟩ →
      top_headlines env st lang country category maxArg =
        ⟨.ok (normalize_articles data),
         { st with
            headlineMem := insertTTL (lang, country, category, m)
              (normalize_articles data) (st.now + 30) st.headlineMem
            disk := if env.diskConfigured then
                insertTTL (DiskKey.headlines (lang, country, category, m))
                  (normalize_articles data) (st.now + 30) st.disk
              else st.disk },
         1⟩) := by
  refine ⟨?_, ?_, ?_, ?_, ?_, ?_⟩
  · intro v hmem
    exact search_news_mem_hit env st q lang country maxArg it hq hm hmem
  · intro v hmem hcfg hdisk
    exact search_news_disk_hit env st q lang country maxArg it hq hm hmem hcfg hdisk
  · intro data n hmem hdisk hf
    have hn : n = 1 := (fetch_ok_inv hf).1
    subst hn
    exact search_news_fetch_ok env st q lang country maxArg it hq hm hmem hdisk hf
  · intro r st1 hcfg h1
    obtain ⟨q3, m2, hs, hm2, hcase⟩ := search_news_ok_inv h1
    rw [hq] at hs
    injection hs with hs
    rw [hm] at hm2
    injection hm2 with hm2
    subst hs
    subst hm2
    rcases hcase with ⟨-, -, hn⟩ | ⟨-, -, -, hn⟩ | ⟨hmem, hdisk, data, hf, hr, hst⟩
    · exact absurd hn one_ne_zero
    · exact absurd hn one_ne_zero
    · subst hst
      subst hr
      refine search_news_disk_hit env _ q lang country maxArg it hq hm
        (lookupTTL_nil _ _) hcfg ?_
      show lookupTTL st.now (DiskKey.search (q2, lang, country, m, it))
        (if env.diskConfigured then
            insertTTL (DiskKey.search (q2, lang, country, m, it))
              (normalize_articles data) (st.now + 60) st.disk
          else st.disk) = some (normalize_articles data)
      rw [hcfg, if_pos rfl]
      exact lookupTTL_insert_self st.now _ _ _ _ (by omega)
  · intro v hmem
    exact top_headlines_mem_hit env st lang country category maxArg hm hmem
  · intro data n hmem hdisk hf
    have hn : n = 1 := (fetch_ok_inv hf).1
    subst hn
    exact top_headlines_fetch_ok env st lang country category maxArg hm hmem hdisk hf

/-- Witness for C2: after the fetching call on `demoEnv`, clearing the
memory tier still yields the original result from disk with no
upstream request. -/
theorem two_tier_cache_protocol_witness :
    search_news demoEnv { demoSt1 with searchMem := [] } ("hello".toList)
        none none (.int 10) false =
      ⟨.ok demoResult, { demoSt1 with searchMem := [] }, 0⟩ :=
  (two_tier_cache_protocol demoEnv emptySt ("hello".toList) none none none
      (.int 10) false ("hello".toList) 10 (by decide) (by decide)).2.2.2.1
    demoResult demoSt1 rfl (by decide)

/-! ### Claim C7: errors precede the cache and never populate it -/

/-- C7: a tool call with invalid input fails with no upstream request
and unchanged state, and every erroring call — validation,
missing-credential or upstream — leaves both cache tiers exactly as
they were. -/
theorem errors_never_cached (env : Env) (st : St) (q : Str)
    (lang country category : Option Str) (maxArg : MaxVal) (it : Bool) :
    (((∃ e, sanitize_query q = .error e) ∨ (∃ e, validate_max maxArg = .error e)) →
      ∃ e, search_news env st q lang country maxArg it = ⟨.error e, st, 0⟩)
    ∧ ((∃ e, validate_max maxArg = .error e) →
      ∃ e, top_headlines env st lang country category maxArg = ⟨.error e, st, 0⟩)
    ∧ (∀ e st2 n, search_news env st q lang country maxArg it = ⟨.error e, st2, n⟩ →
      st2 = st)
    ∧ (∀ e st2 n,
      top_headlines env st lang country category maxArg = ⟨.error e, st2, n⟩ →
      st2 = st) := by
  refine ⟨?_, ?_, fun e st2 n h => search_news_error_state h,
    fun e st2 n h => top_headlines_error_state h⟩
  · rintro (⟨e, he⟩ | ⟨e, he⟩)
    · exact ⟨e, search_news_sanitize_error env st q lang country maxArg it he⟩
    · cases hq : sanitize_query q with
      | error e2 =>
        exact ⟨e2, search_news_sanitize_error env st q lang country maxArg it hq⟩
      | ok q2 =>
        exact ⟨e, search_news_validate_error env st q lang country maxArg it hq he⟩
  · rintro ⟨e, he⟩
    exact ⟨e, top_headlines_validate_error env st lang country category maxArg he⟩

/-- Witness for C7: an all-whitespace query and an out-of-range max
both fail fast with the state untouched and no upstream request. -/
theorem errors_never_cached_witness :
    (∃ e, search_news demoEnv emptySt ("   ".toList) none none (.int 10) false =
      ⟨.error e, emptySt, 0⟩)
    ∧ (∃ e, top_headlines demoEnv emptySt none none none (.int 0) =
      ⟨.error e, emptySt, 0⟩) :=
  ⟨(errors_never_cached demoEnv emptySt ("   ".toList) none none none
      (.int 10) false).1 (Or.inl ⟨.invalid emptyQueryMsg, by decide⟩),
   (errors_never_cached demoEnv emptySt ("   ".toList) none none none
      (.int 0) false).2.1 ⟨.invalid maxRangeMsg, by decide⟩⟩

/-! ### Claim C9: missing credential -/

/-- C9 counterexample: with the API key unset but a fresh entry in the
persistent tier (as left by an earlier run of the process), a tool call
succeeds from cache instead of failing, so it is not the case that
every tool call fails when the credential is missing. -/
theorem missing_key_counterexample :
    demoEnvNoKey.apiKey = none
    ∧ search_news demoEnvNoKey diskSt ("hello".toList) none none (.int 10) false =
      ⟨.ok demoResult, diskSt, 0⟩ :=
  ⟨rfl, by decide⟩

/-- C9 (amended): when the API-key environment variable is unset or
empty, every tool call that misses both cache tiers fails with the
missing-credential error, issuing no upstream request. -/
theorem missing_key_fetch_path_fails (env : Env) (st : St) (q : Str)
    (lang country category : Option Str) (maxArg : MaxVal) (it : Bool)
    (q2 : Str) (m : Int)
    (hkey : env.apiKey = none ∨ env.apiKey = some [])
    (hq : sanitize_query q = .ok q2) (hm : validate_max maxArg = .ok m) :
    (lookupTTL st.now (q2, lang, country, m, it) st.searchMem = none →
      (if env.diskConfigured then
          lookupTTL st.now (DiskKey.search (q2, lang, country, m, it)) st.disk
        else none) = none →
      search_news env st q lang country maxArg it = ⟨.error .missingKey, st, 0⟩)
    ∧ (lookupTTL st.now (lang, country, category, m) st.headlineMem = none →
      (if env.diskConfigured then
          lookupTTL st.now (DiskKey.headlines (lang, country, category, m)) st.disk
        else none) = none →
      top_headlines env st lang country category maxArg =
        ⟨.error .missingKey, st, 0⟩) := by
  have hk : get_api_key env = .error .missingKey := by
    rcases hkey with h | h
    · exact get_api_key_none h
    · unfold get_api_key
      rw [h]
      simp
  constructor
  · intro hmem hdisk
    exact search_news_fetch_error env st q lang country maxArg it hq hm hmem hdisk
      (fetch_key_error hk)
  · intro hmem hdisk
    exact top_headlines_fetch_error env st lang country category maxArg hm hmem
      hdisk (fetch_key_error hk)

/-- Witness for the amended C9: on an empty cache with no API key, a
concrete search call fails with the missing-credential error without
any upstream request. -/
theorem missing_key_fetch_path_fails_witness :
    search_news demoEnvNoKey emptySt ("hello".toList) none none (.int 10) false =
      ⟨.error .missingKey, emptySt, 0⟩ :=
  (missing_key_fetch_path_fails demoEnvNoKey emptySt ("hello".toList) none none
      none (.int 10) false ("hello".toList) 10 (Or.inl rfl) (by decide)
      (by decide)).1 rfl rfl

/-! ### Claim C10: cache hits do not need the credential -/

/-- C10: the credential check lies on the fetch path only, after both
cache tiers are consulted: with the API key unset, a call whose
validated key has a fresh entry in the memory tier or the configured
disk tier returns the cached result successfully. -/
theorem cache_hit_without_key (env : Env) (st : St) (q : Str)
    (lang country category : Option Str) (maxArg : MaxVal) (it : Bool)
    (q2 : Str) (m : Int) (v : NormResult)
    (hkey : env.apiKey = none)
    (hq : sanitize_query q = .ok q2) (hm : validate_max maxArg = .ok m) :
    get_api_key env = .error .missingKey
    ∧ (lookupTTL st.now (q2, lang, country, m, it) st.searchMem = some v →
      search_news env st q lang country maxArg it = ⟨.ok v, st, 0⟩)
    ∧ (lookupTTL st.now (q2, lang, country, m, it) st.searchMem = none →
      env.diskConfigured = true →
      lookupTTL st.now (DiskKey.search (q2, lang, country, m, it)) st.disk = some v →
      search_news env st q lang country maxArg it = ⟨.ok v, st, 0⟩)
    ∧ (lookupTTL st.now (lang, country, category, m) st.headlineMem = some v →
      top_headlines env st lang country category maxArg = ⟨.ok v, st, 0⟩)
    ∧ (lookupTTL st.now (lang, country, category, m) st.headlineMem = none →
      env.diskConfigured = true →
      lookupTTL st.now (DiskKey.headlines (lang, country, category, m)) st.disk =
        some v →
      top_headlines env st lang country category maxArg = ⟨.ok v, st, 0⟩) := by
  refine ⟨get_api_key_none hkey, ?_, ?_, ?_, ?_⟩
  · intro hmem
    exact search_news_mem_hit env st q lang country maxArg it hq hm hmem
  · intro hmem hcfg hdisk
    exact search_news_disk_hit env st q lang country maxArg it hq hm hmem hcfg hdisk
  · intro hmem
    exact top_headlines_mem_hit env st lang country category maxArg hm hmem
  · intro hmem hcfg hdisk
    exact top_headlines_disk_hit env st lang country category maxArg hm hmem hcfg
      hdisk

/-- Witness for C10: with the API key unset, a disk-tier search hit and
a disk-tier headlines hit both succeed from cache. -/
theorem cache_hit_without_key_witness :
    top_headlines demoEnvNoKey diskSt (some ("en".toList)) none none (.int 10) =
      ⟨.ok demoResult, diskSt, 0⟩ :=
  (cache_hit_without_key demoEnvNoKey diskSt ("hello".toList)
      (some ("en".toList)) none none (.int 10) false ("hello".toList) 10
      demoResult rfl (by decide) (by decide)).2.2.2.2 rfl rfl (by decide)

end GNews
